import Mathlib

/-
Verification of the traffic-control daemon (src/traffic-control.py).

The development shallowly embeds the parts of the program the specification
talks about:

* the configuration constants (lines 33-73),
* the target-rate formula evaluated while limiting (lines 712-718),
* the usage sampler `get_current_bytes` with its vnstat-primary /
  sysfs-fallback policy and per-source failure counters (lines 242-262),
* the persisted state record (`load_state`, lines 502-526) and one
  iteration of the main control loop (lines 588-752), with calls to the
  external enforcement gateway (tc / iptables) modelled as an emitted
  action list and the external world (visible interfaces, counter-source
  results, tc initialisation results, the daily-report clock predicate)
  modelled as an environment record,
* the failure / backoff supervisor around a tick (lines 749-775),
* the billing-cycle computation `get_cycle_timestamps` (lines 264-311),
  over a proleptic-Gregorian calendar model; timestamps are seconds since
  the Unix epoch in UTC.

Python floats are modelled as exact rationals, timestamps as integers.
Notification dispatch is fire-and-forget and does not influence the control
state except for the recorded notification timestamps, which the model keeps.
-/

namespace TrafficControl

/-! ## Configuration (global constants, lines 33-73)

The claims quantify over several configuration values ("for all anchor days
1-31", "for all valid inputs"), so the constants become fields of a record;
`defaultConfig` is the literal configuration of the script. -/

structure Config where
  total_quota_gb : ℚ
  threshold_percent : ℚ
  buffer_percent : ℚ
  safety_factor : ℚ
  hard_limit_gb : ℚ
  min_rate_kbps : ℚ
  cycle_start_day : ℕ
  telegram_enabled : Bool
  max_consecutive_failures : ℕ

def UPDATE_INTERVAL_SEC : ℕ := 300

def VNSTAT_FAILURE_LIMIT : ℕ := 5

def MAX_CONSECUTIVE_FAILURES : ℕ := 10

def defaultConfig : Config :=
  { total_quota_gb := 1000
    threshold_percent := 90
    buffer_percent := 1
    safety_factor := 99 / 100
    hard_limit_gb := 1
    min_rate_kbps := 256
    cycle_start_day := 1
    telegram_enabled := false
    max_consecutive_failures := MAX_CONSECUTIVE_FAILURES }

/-! ## Target-rate formula (lines 712-718)

While limiting, the loop computes

    safe_remaining_gb = max(0, remaining_gb - (TOTAL_QUOTA_GB * BUFFER_PERCENT / 100))
    safe_remaining_bytes = safe_remaining_gb * (1024 ** 3)
    target_rate_bps = (safe_remaining_bytes * 8 * SAFETY_FACTOR) / time_remaining_sec
    target_rate_kbps = max(MIN_RATE_KBPS, target_rate_bps / 1000)

with `time_remaining_sec = max(1, cycle["end"] - current_time)` (line 610). -/

def time_remaining_sec (endTs now : ℤ) : ℤ := max 1 (endTs - now)

def safe_remaining_gb (cfg : Config) (remainingGb : ℚ) : ℚ :=
  max 0 (remainingGb - cfg.total_quota_gb * cfg.buffer_percent / 100)

def target_rate_bps (cfg : Config) (remainingGb t : ℚ) : ℚ :=
  safe_remaining_gb cfg remainingGb * 1024 ^ 3 * 8 * cfg.safety_factor / t

def target_rate_kbps (cfg : Config) (remainingGb t : ℚ) : ℚ :=
  max cfg.min_rate_kbps (target_rate_bps cfg remainingGb t / 1000)

/-- Formula written out exactly as the claim states it (spec §4.3): used only
to compare against the embedding of the code. -/
def specTargetRateKbps (minFloor quotaGb bufferPercent safetyFactor remainingGb : ℚ)
    (cycleEnd now : ℤ) : ℚ :=
  max minFloor
    (max 0 (remainingGb - quotaGb * bufferPercent / 100) * 1024 ^ 3 * 8 * safetyFactor
      / ((max 1 (cycleEnd - now) : ℤ) : ℚ) / 1000)

/-! ## Usage sampler `get_current_bytes` (lines 242-262) -/

/-- Persisted state record, with the fields and defaults of `load_state`
(lines 505-518). Timestamps are integers, byte counters naturals, rates
rationals. -/
structure State where
  version : ℕ
  cycle_start_ts : ℤ
  is_limiting : Bool
  is_blocked : Bool
  last_rate_kbps : ℚ
  last_daily_report : ℤ
  last_event_notif : ℤ
  last_status_notif : ℤ
  last_failure_notif : ℤ
  detected_interfaces : List String
  vnstat_failures : ℕ
  sysfs_failures : ℕ
deriving DecidableEq

/-- Default state of `load_state` (lines 505-518), used when the state file
is absent or corrupt. -/
def default_state : State :=
  { version := 1
    cycle_start_ts := 0
    is_limiting := false
    is_blocked := false
    last_rate_kbps := 0
    last_daily_report := 0
    last_event_notif := 0
    last_status_notif := 0
    last_failure_notif := 0
    detected_interfaces := []
    vnstat_failures := 0
    sysfs_failures := 0 }

/-- Outcome of the external counter sources for one call of
`get_current_bytes` on one interface: whether the vnstat binary is installed
(`shutil.which("vnstat")`, line 245), the result of `get_vnstat_data`
(`none` models its `None` failure return) and the result of
`get_sysfs_data`. -/
structure SampleEnv where
  vnstat_installed : Bool
  vnstat_data : Option ℕ
  sysfs_data : Option ℕ

/-- Fallback half of `get_current_bytes` (lines 256-262). -/
def sysfs_fallback (e : SampleEnv) (st : State) : ℕ × State :=
  match e.sysfs_data with
  | some d => (d, { st with sysfs_failures := 0 })
  | none => (0, { st with sysfs_failures := st.sysfs_failures + 1 })

/-- Embedding of `get_current_bytes` (lines 242-262). -/
def get_current_bytes (e : SampleEnv) (st : State) : ℕ × State :=
  if e.vnstat_installed then
    match e.vnstat_data with
    | some d => (d, { st with vnstat_failures := 0 })
    | none => sysfs_fallback e { st with vnstat_failures := st.vnstat_failures + 1 }
  else
    sysfs_fallback e { st with vnstat_failures := st.vnstat_failures + 1 }

/-- Repeated calls of the sampler, returning the list of byte readings in
order together with the final state. -/
def runSamples : List SampleEnv → State → List ℕ × State
  | [], st => ([], st)
  | e :: rest, st =>
    let r := get_current_bytes e st
    let rr := runSamples rest r.2
    (r.1 :: rr.1, rr.2)

/-- Primary-source failure: either the vnstat binary is missing (line 253)
or `get_vnstat_data` returned `None` (line 251). -/
def primaryFails (e : SampleEnv) : Prop :=
  e.vnstat_installed = false ∨ e.vnstat_data = none

instance (e : SampleEnv) : Decidable (primaryFails e) := by
  unfold primaryFails; infer_instance

/-! ## Claims about the rate formula (C2, C4) -/

/-- C2: for every tick evaluated in the LIMITING state, the target rate
equals `max(min_rate_floor, (max(0, remaining_gb - quota*buffer/100) in
bytes) * 8 * safety_factor / max(1, cycle.end - now) / 1000)`; the computed
`target_rate_kbps` is at least the floor for all inputs, and the remaining
quota is clamped to zero before the rate is computed (never negative). -/
theorem target_rate_formula_and_floor (cfg : Config) (remainingGb : ℚ) (endTs now : ℤ) :
    target_rate_kbps cfg remainingGb ((time_remaining_sec endTs now : ℤ) : ℚ)
        = specTargetRateKbps cfg.min_rate_kbps cfg.total_quota_gb cfg.buffer_percent
            cfg.safety_factor remainingGb endTs now
      ∧ cfg.min_rate_kbps
          ≤ target_rate_kbps cfg remainingGb ((time_remaining_sec endTs now : ℤ) : ℚ)
      ∧ 0 ≤ safe_remaining_gb cfg remainingGb :=
  ⟨rfl, le_max_left _ _, le_max_left _ _⟩

/-- C4 counterexample: with the script's configuration and 100 GB remaining,
shrinking the remaining time from 432000 s to 216000 s makes the target rate
strictly larger, so `target_kbps` is not monotonically non-increasing as
`time_remaining` decreases with usage held fixed. -/
theorem target_rate_time_antitone_counterexample :
    target_rate_kbps defaultConfig 100 432000 < target_rate_kbps defaultConfig 100 216000 := by
  norm_num [target_rate_kbps, target_rate_bps, safe_remaining_gb, defaultConfig]

/-- C4 amended: `target_kbps` is monotonically non-increasing as usage rises
(remaining quota falls) with `time_remaining` fixed, and monotonically
non-DEcreasing as `time_remaining` decreases with usage fixed (the formula
spreads the remaining quota over the remaining time, so less time means a
higher, not lower, allowed rate). -/
theorem target_rate_monotonicity (cfg : Config) (r1 r2 t t1 t2 : ℚ) :
    (0 ≤ cfg.safety_factor → 0 < t → r1 ≤ r2 →
        target_rate_kbps cfg r1 t ≤ target_rate_kbps cfg r2 t)
      ∧ (0 ≤ cfg.safety_factor → 0 < t1 → t1 ≤ t2 →
          target_rate_kbps cfg r1 t2 ≤ target_rate_kbps cfg r1 t1) := by
  constructor
  · intro hs ht hr
    apply max_le_max le_rfl
    apply div_le_div_of_nonneg_right _ (by norm_num : (0:ℚ) ≤ 1000)
    unfold target_rate_bps
    apply div_le_div_of_nonneg_right _ ht.le
    have hsafe : safe_remaining_gb cfg r1 ≤ safe_remaining_gb cfg r2 :=
      max_le_max le_rfl (by linarith)
    have h8 : (0:ℚ) ≤ 1024 ^ 3 * 8 := by norm_num
    calc safe_remaining_gb cfg r1 * 1024 ^ 3 * 8 * cfg.safety_factor
        = safe_remaining_gb cfg r1 * (1024 ^ 3 * 8) * cfg.safety_factor := by ring
      _ ≤ safe_remaining_gb cfg r2 * (1024 ^ 3 * 8) * cfg.safety_factor := by
          apply mul_le_mul_of_nonneg_right _ hs
          exact mul_le_mul_of_nonneg_right hsafe h8
      _ = safe_remaining_gb cfg r2 * 1024 ^ 3 * 8 * cfg.safety_factor := by ring
  · intro hs ht1 ht12
    apply max_le_max le_rfl
    apply div_le_div_of_nonneg_right _ (by norm_num : (0:ℚ) ≤ 1000)
    unfold target_rate_bps
    apply div_le_div_of_nonneg_left _ ht1 ht12
    have h0 : (0:ℚ) ≤ safe_remaining_gb cfg r1 := le_max_left _ _
    positivity

/-- C4 amended, witness. -/
theorem target_rate_monotonicity_witness :
    ((0:ℚ) ≤ defaultConfig.safety_factor ∧ (0:ℚ) < 432000 ∧ (50:ℚ) ≤ 100
        ∧ (0:ℚ) < 216000 ∧ (216000:ℚ) ≤ 432000)
      ∧ target_rate_kbps defaultConfig 50 432000 ≤ target_rate_kbps defaultConfig 100 432000
      ∧ target_rate_kbps defaultConfig 50 432000 ≤ target_rate_kbps defaultConfig 50 216000 :=
  ⟨by norm_num [defaultConfig],
    (target_rate_monotonicity defaultConfig 50 100 432000 216000 432000).1
      (by norm_num [defaultConfig]) (by norm_num) (by norm_num),
    (target_rate_monotonicity defaultConfig 50 50 432000 216000 432000).2
      (by norm_num [defaultConfig]) (by norm_num) (by norm_num)⟩

/-! ## Claims about the usage sampler (C5, C10) -/

/-- Helper: when every sample in a run has a failing primary and a
succeeding fallback, the primary counter grows by the number of samples,
the fallback counter ends at zero when there is at least one sample, and
the outputs are the fallback readings. -/
theorem runSamples_primary_failing (envs : List SampleEnv) :
    ∀ st : State, (∀ e ∈ envs, primaryFails e ∧ e.sysfs_data ≠ none) →
      (runSamples envs st).2.vnstat_failures = st.vnstat_failures + envs.length
        ∧ (runSamples envs st).2.sysfs_failures
            = (if envs.isEmpty then st.sysfs_failures else 0)
        ∧ (runSamples envs st).1 = envs.map (fun e => e.sysfs_data.getD 0) := by
  induction envs with
  | nil => intro st _; simp [runSamples]
  | cons e rest ih =>
    intro st hall
    obtain ⟨hpf, hsd⟩ := hall e (List.mem_cons_self _ _)
    have hrest : ∀ e' ∈ rest, primaryFails e' ∧ e'.sysfs_data ≠ none :=
      fun e' he' => hall e' (List.mem_cons_of_mem _ he')
    obtain ⟨b, hb⟩ : ∃ b, e.sysfs_data = some b := by
      cases h : e.sysfs_data with
      | none => exact absurd h hsd
      | some b => exact ⟨b, rfl⟩
    have hstep : get_current_bytes e st
        = (b, { st with vnstat_failures := st.vnstat_failures + 1, sysfs_failures := 0 }) := by
      rcases hpf with h | h
      · simp [get_current_bytes, h, sysfs_fallback, hb]
      · cases hvi : e.vnstat_installed <;>
          simp [get_current_bytes, hvi, h, sysfs_fallback, hb]
    have ihr := ih { st with vnstat_failures := st.vnstat_failures + 1, sysfs_failures := 0 } hrest
    refine ⟨?_, ?_, ?_⟩
    · simp only [runSamples, hstep]
      rw [ihr.1]
      simp only [List.length_cons]
      omega
    · simp only [runSamples, hstep]
      rcases rest with _ | ⟨r, rs⟩
      · simp [runSamples]
      · simpa using ihr.2.1
    · simp only [runSamples, hstep, List.map, hb]
      rw [ihr.2.2]
      simp

/-- C5: the sampler policy. Primary success resets the primary counter and
returns the primary value without consulting the fallback; primary failure
increments the primary counter and falls back; fallback success resets the
fallback counter and returns its value; double failure increments the
fallback counter and returns zero (the sampler is a total function, never an
error). If the primary fails N consecutive times while the fallback always
succeeds, the primary counter reaches N, the fallback counter stays 0 and
every returned value is the fallback reading. -/
theorem sampler_fallback_policy (e : SampleEnv) (st : State) :
    (∀ d : ℕ, e.vnstat_installed = true → e.vnstat_data = some d →
        get_current_bytes e st = (d, { st with vnstat_failures := 0 }))
      ∧ (primaryFails e →
          (get_current_bytes e st).2.vnstat_failures = st.vnstat_failures + 1)
      ∧ (∀ b : ℕ, primaryFails e → e.sysfs_data = some b →
          get_current_bytes e st
            = (b, { st with vnstat_failures := st.vnstat_failures + 1, sysfs_failures := 0 }))
      ∧ (primaryFails e → e.sysfs_data = none →
          get_current_bytes e st
            = (0, { st with vnstat_failures := st.vnstat_failures + 1,
                            sysfs_failures := st.sysfs_failures + 1 }))
      ∧ (∀ envs : List SampleEnv, envs ≠ [] → st.vnstat_failures = 0 →
          (∀ e' ∈ envs, primaryFails e' ∧ e'.sysfs_data ≠ none) →
          (runSamples envs st).2.vnstat_failures = envs.length
            ∧ (runSamples envs st).2.sysfs_failures = 0
            ∧ (runSamples envs st).1 = envs.map (fun e' => e'.sysfs_data.getD 0)) := by
  refine ⟨?_, ?_, ?_, ?_, ?_⟩
  · intro d hi hd; simp [get_current_bytes, hi, hd]
  · intro hpf
    rcases hpf with h | h
    · cases hs : e.sysfs_data <;> simp [get_current_bytes, h, sysfs_fallback, hs]
    · cases hvi : e.vnstat_installed <;> cases hs : e.sysfs_data <;>
        simp [get_current_bytes, hvi, h, sysfs_fallback, hs]
  · intro b hpf hb
    rcases hpf with h | h
    · simp [get_current_bytes, h, sysfs_fallback, hb]
    · cases hvi : e.vnstat_installed <;>
        simp [get_current_bytes, hvi, h, sysfs_fallback, hb]
  · intro hpf hb
    rcases hpf with h | h
    · simp [get_current_bytes, h, sysfs_fallback, hb]
    · cases hvi : e.vnstat_installed <;>
        simp [get_current_bytes, hvi, h, sysfs_fallback, hb]
  · intro envs hne hv0 hall
    have h := runSamples_primary_failing envs st hall
    refine ⟨by rw [h.1, hv0, Nat.zero_add], ?_, h.2.2⟩
    rw [h.2.1]
    simp [List.isEmpty_iff, hne]

/-- C5, witness: primary fails twice with the fallback reading 7 then 9. -/
theorem sampler_fallback_policy_witness :
    (primaryFails ⟨false, none, some 7⟩ ∧ ([(⟨false, none, some 7⟩ : SampleEnv),
        ⟨true, none, some 9⟩] : List SampleEnv) ≠ []
      ∧ (∀ e' ∈ ([⟨false, none, some 7⟩, ⟨true, none, some 9⟩] : List SampleEnv),
          primaryFails e' ∧ e'.sysfs_data ≠ none))
    ∧ ((get_current_bytes ⟨false, none, some 7⟩ default_state).2.vnstat_failures
          = default_state.vnstat_failures + 1
      ∧ (runSamples [⟨false, none, some 7⟩, ⟨true, none, some 9⟩]
            default_state).2.vnstat_failures = 2
      ∧ (runSamples [⟨false, none, some 7⟩, ⟨true, none, some 9⟩]
            default_state).1 = [7, 9]) := by
  refine ⟨⟨Or.inl rfl, by simp, by decide⟩, ?_, ?_, ?_⟩
  · exact (sampler_fallback_policy ⟨false, none, some 7⟩ default_state).2.1 (Or.inl rfl)
  · exact ((sampler_fallback_policy ⟨false, none, some 7⟩
      default_state).2.2.2.2
      [⟨false, none, some 7⟩, ⟨true, none, some 9⟩] (by simp) rfl (by decide)).1
  · exact ((sampler_fallback_policy ⟨false, none, some 7⟩
      default_state).2.2.2.2
      [⟨false, none, some 7⟩, ⟨true, none, some 9⟩] (by simp) rfl (by decide)).2.2

/-- Helper: a run in which the vnstat binary is never installed adds the
length of the run to the primary failure counter. -/
theorem runSamples_vnstat_missing (envs : List SampleEnv) :
    ∀ st : State, (∀ e ∈ envs, e.vnstat_installed = false) →
      (runSamples envs st).2.vnstat_failures = st.vnstat_failures + envs.length := by
  induction envs with
  | nil => intro st _; simp [runSamples]
  | cons e rest ih =>
    intro st hall
    have he : e.vnstat_installed = false := hall e (List.mem_cons_self _ _)
    have hrest : ∀ e' ∈ rest, e'.vnstat_installed = false :=
      fun e' he' => hall e' (List.mem_cons_of_mem _ he')
    have hcnt : (get_current_bytes e st).2.vnstat_failures = st.vnstat_failures + 1 := by
      cases hs : e.sysfs_data <;> simp [get_current_bytes, he, sysfs_fallback, hs]
    have hr := ih (get_current_bytes e st).2 hrest
    simp only [runSamples]
    rw [hr, hcnt]
    simp only [List.length_cons]
    omega

/-- C10: when the vnstat binary is not installed, every call of
`get_current_bytes` increments the primary failure counter without
attempting a primary read (the result does not depend on the vnstat data at
all), so after more than `VNSTAT_FAILURE_LIMIT` samples the counter exceeds
the configured limit even though no vnstat invocation ever ran. -/
theorem missing_vnstat_counts_as_primary_failure (e : SampleEnv) (st : State) :
    (e.vnstat_installed = false →
        (get_current_bytes e st).2.vnstat_failures = st.vnstat_failures + 1
          ∧ ∀ d : Option ℕ,
              get_current_bytes { e with vnstat_data := d } st
                = get_current_bytes { e with vnstat_data := none } st)
      ∧ (∀ envs : List SampleEnv, (∀ e' ∈ envs, e'.vnstat_installed = false) →
          (runSamples envs st).2.vnstat_failures = st.vnstat_failures + envs.length
            ∧ (VNSTAT_FAILURE_LIMIT < envs.length →
                VNSTAT_FAILURE_LIMIT < (runSamples envs st).2.vnstat_failures)) := by
  constructor
  · intro he
    constructor
    · cases hs : e.sysfs_data <;> simp [get_current_bytes, he, sysfs_fallback, hs]
    · intro d
      cases hs : e.sysfs_data <;> simp [get_current_bytes, he, sysfs_fallback, hs]
  · intro envs hall
    have h := runSamples_vnstat_missing envs st hall
    exact ⟨h, fun hlen => by rw [h]; omega⟩

/-- C10, witness: six samples with the binary missing push the counter past
the limit of 5. -/
theorem missing_vnstat_counts_as_primary_failure_witness :
    ((⟨false, some 3, some 7⟩ : SampleEnv).vnstat_installed = false
        ∧ (∀ e' ∈ List.replicate 6 (⟨false, some 3, some 7⟩ : SampleEnv),
            e'.vnstat_installed = false)
        ∧ VNSTAT_FAILURE_LIMIT < (List.replicate 6 (⟨false, some 3, some 7⟩ : SampleEnv)).length)
      ∧ (get_current_bytes ⟨false, some 3, some 7⟩ default_state).2.vnstat_failures
          = default_state.vnstat_failures + 1
      ∧ VNSTAT_FAILURE_LIMIT
          < (runSamples (List.replicate 6 ⟨false, some 3, some 7⟩) default_state).2.vnstat_failures := by
  refine ⟨⟨rfl, by decide, by decide⟩, ?_, ?_⟩
  · exact ((missing_vnstat_counts_as_primary_failure ⟨false, some 3, some 7⟩ default_state).1 rfl).1
  · exact ((missing_vnstat_counts_as_primary_failure ⟨false, some 3, some 7⟩ default_state).2
      (List.replicate 6 ⟨false, some 3, some 7⟩) (by decide)).2 (by decide)

/-! ## One iteration of the main loop (lines 588-752)

The external world of one tick is an environment: the interfaces currently
visible (`get_all_interfaces`), the cycle and wall clock, the per-interface
counter-source outcomes, which interfaces have a working tc handle
(`tc_initialized`), and the value of the clock predicate
`should_send_daily_report`. Calls to the enforcement gateway are modelled
as an emitted action list; notifications are fire-and-forget and carry no
state except the recorded timestamps. -/

structure Cycle where
  startTs : ℤ
  endTs : ℤ
deriving DecidableEq

inductive Action where
  | block (iface : String)
  | unblock (iface : String)
  | update_tc_limit (iface : String) (rate : ℚ)
  | disable_tc_limit (iface : String)
deriving DecidableEq

structure TickEnv where
  current_interfaces : List String
  cycle : Cycle
  now : ℤ
  sampler : String → SampleEnv
  tc_initialized : String → Bool
  should_send_daily_report : Bool

/-- Dynamic interface detection (lines 591-595): append every currently
visible interface that is not yet tracked. -/
def detect_step (env : TickEnv) (st : State) : State :=
  { st with detected_interfaces := st.detected_interfaces
      ++ env.current_interfaces.filter (fun i => decide (i ∉ st.detected_interfaces)) }

/-- Rollover condition of line 613:
`current_time > cycle["end"] or state["cycle_start_ts"] != cycle["start"]`. -/
def resetTrigger (st : State) (c : Cycle) (now : ℤ) : Prop :=
  c.endTs < now ∨ st.cycle_start_ts ≠ c.startTs

instance (st : State) (c : Cycle) (now : ℤ) : Decidable (resetTrigger st c now) := by
  unfold resetTrigger; infer_instance

/-- Fresh record built on rollover (lines 630-643): control flags, rate and
failure counters zeroed, `cycle_start_ts` set to the computed start, while
the version, the four notification timestamps and the tracked-interface
list are carried over. -/
def fresh_state (st : State) (cycleStart : ℤ) : State :=
  { version := st.version
    cycle_start_ts := cycleStart
    is_limiting := false
    is_blocked := false
    last_rate_kbps := 0
    last_daily_report := st.last_daily_report
    last_event_notif := st.last_event_notif
    last_status_notif := st.last_status_notif
    last_failure_notif := st.last_failure_notif
    detected_interfaces := st.detected_interfaces
    vnstat_failures := 0
    sysfs_failures := 0 }

/-- Cycle Reset Handler, state part (lines 613-643). -/
def reset_step (st : State) (c : Cycle) (now : ℤ) : State :=
  if resetTrigger st c now then fresh_state st c.startTs else st

/-- Cycle Reset Handler, enforcement part (lines 617-621): on rollover,
unblock every tracked interface if blocked and drop the tc limit on every
tc-initialised interface if limiting. -/
def reset_actions (env : TickEnv) (st : State) : List Action :=
  if resetTrigger st env.cycle env.now then
    (st.detected_interfaces.map (fun i =>
      (if st.is_blocked then [Action.unblock i] else [])
        ++ (if st.is_limiting && env.tc_initialized i then [Action.disable_tc_limit i] else []))).flatten
  else []

/-- Sampling loop of lines 669-676: sum `get_current_bytes` over the tracked
interfaces, threading the failure counters through the state. -/
def sampleAll (sampler : String → SampleEnv) : List String → State → ℕ × State
  | [], st => (0, st)
  | i :: rest, st =>
    let r := get_current_bytes (sampler i) st
    let rr := sampleAll sampler rest r.2
    (r.1 + rr.1, rr.2)

/-- Daily-report block (lines 646-666): when the clock predicate fires, the
report re-samples every tracked interface (mutating the failure counters)
and records the report time if the telegram dispatch was accepted. -/
def daily_step (cfg : Config) (env : TickEnv) (st : State) : State :=
  if env.should_send_daily_report then
    let st1 := (sampleAll env.sampler st.detected_interfaces st).2
    if cfg.telegram_enabled then { st1 with last_daily_report := env.now } else st1
  else st

/-- State right before the core control logic: detection, reset handler and
daily report applied in program order. -/
def pre_state (cfg : Config) (env : TickEnv) (st : State) : State :=
  daily_step cfg env (reset_step (detect_step env st) env.cycle env.now)

/-- Total bytes and post-sampling state of the core sampling loop. -/
def tick_sample (cfg : Config) (env : TickEnv) (st : State) : ℕ × State :=
  sampleAll env.sampler (pre_state cfg env st).detected_interfaces (pre_state cfg env st)

/-- Core control logic (lines 678-745): circuit-breaker check, early return
while blocked, threshold check, rate computation and tc updates, limit
removal below the threshold. `update_tc_limit` and `disable_tc_limit` in
the script run `tc` with `check=False` and therefore always report success,
so `last_rate_kbps` is updated whenever at least one interface has a tc
handle. -/
def control_step (cfg : Config) (tc : String → Bool) (tRem : ℤ) (totalBytes : ℕ)
    (st : State) : State × List Action :=
  let totalGb : ℚ := (totalBytes : ℚ) / 1024 ^ 3
  let usedPercent : ℚ := totalGb / cfg.total_quota_gb * 100
  let remainingGb : ℚ := cfg.total_quota_gb - totalGb
  let st1 := if st.is_blocked = false ∧ remainingGb ≤ cfg.hard_limit_gb
    then { st with is_blocked := true } else st
  let blockActs := if st.is_blocked = false ∧ remainingGb ≤ cfg.hard_limit_gb
    then st.detected_interfaces.map Action.block else []
  if st1.is_blocked then (st1, blockActs)
  else
    let st2 := if st1.is_limiting = false ∧ cfg.threshold_percent ≤ usedPercent
      then { st1 with is_limiting := true } else st1
    if st2.is_limiting then
      let rate := target_rate_kbps cfg remainingGb (tRem : ℚ)
      let tcIfaces := st2.detected_interfaces.filter tc
      let limitActs := tcIfaces.map (fun i => Action.update_tc_limit i rate)
      let st3 := if tcIfaces.isEmpty then st2 else { st2 with last_rate_kbps := rate }
      if usedPercent < cfg.threshold_percent then
        ({ st3 with is_limiting := false },
          blockActs ++ limitActs ++ tcIfaces.map Action.disable_tc_limit)
      else
        (st3, blockActs ++ limitActs)
    else
      (st2, blockActs ++ (st2.detected_interfaces.filter tc).map Action.disable_tc_limit)

/-- One full iteration of the main loop. -/
def tick (cfg : Config) (env : TickEnv) (st : State) : State × List Action :=
  let p := control_step cfg env.tc_initialized (time_remaining_sec env.cycle.endTs env.now)
    (tick_sample cfg env st).1 (tick_sample cfg env st).2
  (p.1, reset_actions env (detect_step env st) ++ p.2)

/-- Iterated ticks (resulting state only). -/
def runTicks (cfg : Config) (envs : List TickEnv) (st : State) : State :=
  envs.foldl (fun s e => (tick cfg e s).1) st

/-! ### Preservation lemmas for the tick pipeline -/

theorem get_current_bytes_core_fields (e : SampleEnv) (st : State) :
    (get_current_bytes e st).2.is_blocked = st.is_blocked
      ∧ (get_current_bytes e st).2.is_limiting = st.is_limiting
      ∧ (get_current_bytes e st).2.cycle_start_ts = st.cycle_start_ts
      ∧ (get_current_bytes e st).2.detected_interfaces = st.detected_interfaces := by
  cases hvi : e.vnstat_installed <;> cases hvd : e.vnstat_data <;> cases hs : e.sysfs_data <;>
    simp [get_current_bytes, sysfs_fallback, hvi, hvd, hs]

theorem sampleAll_core_fields (sampler : String → SampleEnv) (ifaces : List String) :
    ∀ st : State,
      (sampleAll sampler ifaces st).2.is_blocked = st.is_blocked
        ∧ (sampleAll sampler ifaces st).2.is_limiting = st.is_limiting
        ∧ (sampleAll sampler ifaces st).2.cycle_start_ts = st.cycle_start_ts
        ∧ (sampleAll sampler ifaces st).2.detected_interfaces = st.detected_interfaces := by
  induction ifaces with
  | nil => intro st; simp [sampleAll]
  | cons i rest ih =>
    intro st
    have h1 := get_current_bytes_core_fields (sampler i) st
    have h2 := ih (get_current_bytes (sampler i) st).2
    simp only [sampleAll]
    exact ⟨h2.1.trans h1.1, h2.2.1.trans h1.2.1, h2.2.2.1.trans h1.2.2.1,
      h2.2.2.2.trans h1.2.2.2⟩

theorem daily_step_core_fields (cfg : Config) (env : TickEnv) (st : State) :
    (daily_step cfg env st).is_blocked = st.is_blocked
      ∧ (daily_step cfg env st).is_limiting = st.is_limiting
      ∧ (daily_step cfg env st).cycle_start_ts = st.cycle_start_ts
      ∧ (daily_step cfg env st).detected_interfaces = st.detected_interfaces := by
  have h := sampleAll_core_fields env.sampler st.detected_interfaces st
  unfold daily_step
  split
  · split
    · exact ⟨h.1, h.2.1, h.2.2.1, h.2.2.2⟩
    · exact h
  · exact ⟨rfl, rfl, rfl, rfl⟩

/-- With no rollover trigger and no reset, `pre_state` keeps the control
flags, the cycle anchor and the (already detection-extended) interface
list. -/
theorem pre_state_no_reset (cfg : Config) (env : TickEnv) (st : State)
    (hc : st.cycle_start_ts = env.cycle.startTs) (hn : env.now ≤ env.cycle.endTs) :
    (pre_state cfg env st).is_blocked = st.is_blocked
      ∧ (pre_state cfg env st).is_limiting = st.is_limiting
      ∧ (pre_state cfg env st).cycle_start_ts = st.cycle_start_ts
      ∧ (pre_state cfg env st).detected_interfaces = (detect_step env st).detected_interfaces
      ∧ reset_actions env (detect_step env st) = [] := by
  have hnt : ¬ resetTrigger (detect_step env st) env.cycle env.now := by
    rintro (h | h)
    · exact absurd hn (not_le.mpr h)
    · exact h hc
  have hrs : reset_step (detect_step env st) env.cycle env.now = detect_step env st := by
    rw [reset_step, if_neg hnt]
  have h := daily_step_core_fields cfg env (detect_step env st)
  unfold pre_state
  rw [hrs]
  exact ⟨h.1, h.2.1, h.2.2.1, h.2.2.2, by rw [reset_actions, if_neg hnt]⟩

/-- While already blocked, the core control logic does nothing. -/
theorem control_step_blocked (cfg : Config) (tc : String → Bool) (tRem : ℤ)
    (totalBytes : ℕ) (st : State) (hb : st.is_blocked = true) :
    control_step cfg tc tRem totalBytes st = (st, []) := by
  unfold control_step
  simp [hb]

/-- The circuit breaker engages as soon as the remaining quota drops to the
hard limit: the state becomes blocked and a block action is emitted for
every tracked interface, and nothing else happens in the tick. -/
theorem control_step_enter_block (cfg : Config) (tc : String → Bool) (tRem : ℤ)
    (totalBytes : ℕ) (st : State) (hb : st.is_blocked = false)
    (hr : cfg.total_quota_gb - (totalBytes : ℚ) / 1024 ^ 3 ≤ cfg.hard_limit_gb) :
    control_step cfg tc tRem totalBytes st
      = ({ st with is_blocked := true }, st.detected_interfaces.map Action.block) := by
  unfold control_step
  simp [hb, hr]

/-- One blocked tick with no rollover: stays blocked, does not touch
`is_limiting` or the cycle anchor, and emits no enforcement action. -/
theorem tick_blocked_skip (cfg : Config) (env : TickEnv) (st : State)
    (hb : st.is_blocked = true) (hc : st.cycle_start_ts = env.cycle.startTs)
    (hn : env.now ≤ env.cycle.endTs) :
    (tick cfg env st).1.is_blocked = true
      ∧ (tick cfg env st).1.is_limiting = st.is_limiting
      ∧ (tick cfg env st).1.cycle_start_ts = st.cycle_start_ts
      ∧ (tick cfg env st).2 = [] := by
  have hp := pre_state_no_reset cfg env st hc hn
  have hs := sampleAll_core_fields env.sampler
    (pre_state cfg env st).detected_interfaces (pre_state cfg env st)
  have hsb : (tick_sample cfg env st).2.is_blocked = true := by
    rw [tick_sample]; rw [hs.1, hp.1]; exact hb
  have hcb := control_step_blocked cfg env.tc_initialized
    (time_remaining_sec env.cycle.endTs env.now) (tick_sample cfg env st).1
    (tick_sample cfg env st).2 hsb
  unfold tick
  rw [hcb]
  refine ⟨hsb, ?_, ?_, ?_⟩
  · rw [tick_sample, hs.2.1, hp.2.1]
  · rw [tick_sample, hs.2.2.1, hp.2.2.1]
  · rw [hp.2.2.2.2]; rfl

/-- Helper for the sequence part of C1: as long as every tick stays inside
the same cycle, a blocked state never leaves BLOCKED. -/
theorem runTicks_blocked (cfg : Config) (c : Cycle) (envs : List TickEnv) :
    ∀ st : State, st.is_blocked = true → st.cycle_start_ts = c.startTs →
      (∀ e ∈ envs, e.cycle = c ∧ e.now ≤ c.endTs) →
      (runTicks cfg envs st).is_blocked = true := by
  induction envs with
  | nil => intro st hb _ _; simpa [runTicks] using hb
  | cons e rest ih =>
    intro st hb hc hall
    have he := hall e (List.mem_cons_self _ _)
    have hstep := tick_blocked_skip cfg e st hb (by rw [he.1]; exact hc)
      (by rw [he.1]; exact he.2)
    have hrun : runTicks cfg (e :: rest) st = runTicks cfg rest (tick cfg e st).1 := rfl
    rw [hrun]
    exact ih (tick cfg e st).1 hstep.1 (by rw [hstep.2.2.1, hc])
      (fun e' h' => hall e' (List.mem_cons_of_mem _ h'))

/-! ### Claims C1, C6, C7, C9 -/

/-- C1: within a billing cycle (no rollover trigger in any tick), once the
persisted state is blocked it stays blocked for every subsequent sequence of
usage readings; a blocked-entry tick emits a block call for every tracked
interface; a tick that starts blocked skips all limiting and transition
logic (`is_limiting` untouched, no enforcement action at all). -/
theorem blocked_state_is_terminal (cfg : Config) (c : Cycle) (st : State)
    (env : TickEnv) (envs : List TickEnv) :
    (st.is_blocked = true → st.cycle_start_ts = c.startTs →
        (∀ e ∈ env :: envs, e.cycle = c ∧ e.now ≤ c.endTs) →
        (runTicks cfg (env :: envs) st).is_blocked = true
          ∧ (tick cfg env st).1.is_limiting = st.is_limiting
          ∧ (tick cfg env st).2 = [])
      ∧ (st.is_blocked = false → st.cycle_start_ts = env.cycle.startTs →
          env.now ≤ env.cycle.endTs →
          cfg.total_quota_gb - ((tick_sample cfg env st).1 : ℚ) / 1024 ^ 3
              ≤ cfg.hard_limit_gb →
          (tick cfg env st).1.is_blocked = true
            ∧ ∀ i ∈ (tick cfg env st).1.detected_interfaces,
                Action.block i ∈ (tick cfg env st).2) := by
  constructor
  · intro hb hc hall
    refine ⟨runTicks_blocked cfg c (env :: envs) st hb hc hall, ?_, ?_⟩
    · exact (tick_blocked_skip cfg env st hb
        (by rw [(hall env (List.mem_cons_self _ _)).1]; exact hc)
        (by rw [(hall env (List.mem_cons_self _ _)).1]
            exact (hall env (List.mem_cons_self _ _)).2)).2.1
    · exact (tick_blocked_skip cfg env st hb
        (by rw [(hall env (List.mem_cons_self _ _)).1]; exact hc)
        (by rw [(hall env (List.mem_cons_self _ _)).1]
            exact (hall env (List.mem_cons_self _ _)).2)).2.2.2
  · intro hb hc hn hr
    have hp := pre_state_no_reset cfg env st hc hn
    have hs := sampleAll_core_fields env.sampler
      (pre_state cfg env st).detected_interfaces (pre_state cfg env st)
    have hsb : (tick_sample cfg env st).2.is_blocked = false := by
      rw [tick_sample]; rw [hs.1, hp.1]; exact hb
    have hcb := control_step_enter_block cfg env.tc_initialized
      (time_remaining_sec env.cycle.endTs env.now) (tick_sample cfg env st).1
      (tick_sample cfg env st).2 hsb hr
    constructor
    · show (tick cfg env st).1.is_blocked = true
      unfold tick
      rw [hcb]
    · intro i hi
      have hi2 : i ∈ (tick_sample cfg env st).2.detected_interfaces := by
        have : (tick cfg env st).1.detected_interfaces
            = (tick_sample cfg env st).2.detected_interfaces := by
          unfold tick; rw [hcb]
        rwa [this] at hi
      show Action.block i ∈ (tick cfg env st).2
      unfold tick
      rw [hcb, hp.2.2.2.2]
      simp only [List.nil_append]
      exact List.mem_map_of_mem Action.block hi2

/-- Concrete inputs for the C1 witness. -/
def c1_blocked_st : State :=
  { default_state with is_blocked := true, detected_interfaces := ["eth0"] }

def c1_normal_st : State :=
  { default_state with detected_interfaces := ["eth0"] }

def c1_env : TickEnv :=
  ⟨[], ⟨0, 1000⟩, 5, fun _ => ⟨true, some 7, some 7⟩, fun _ => true, false⟩

def c1_env2 : TickEnv :=
  ⟨[], ⟨0, 1000⟩, 5, fun _ => ⟨true, some (1000 * 1024 ^ 3), some 0⟩, fun _ => true, false⟩

/-- C1, witness: a blocked state stays blocked over one in-cycle tick with
an empty action list; a normal state with the quota exhausted enters
BLOCKED. -/
theorem blocked_state_is_terminal_witness :
    (c1_blocked_st.is_blocked = true
        ∧ (runTicks defaultConfig [c1_env] c1_blocked_st).is_blocked = true
        ∧ (tick defaultConfig c1_env c1_blocked_st).2 = [])
      ∧ (tick defaultConfig c1_env2 c1_normal_st).1.is_blocked = true := by
  constructor
  · refine ⟨rfl, ?_, ?_⟩
    · exact ((blocked_state_is_terminal defaultConfig ⟨0, 1000⟩ c1_blocked_st c1_env []).1
        rfl rfl (by decide)).1
    · exact ((blocked_state_is_terminal defaultConfig ⟨0, 1000⟩ c1_blocked_st c1_env []).1
        rfl rfl (by decide)).2.2
  · refine ((blocked_state_is_terminal defaultConfig ⟨0, 1000⟩ c1_normal_st c1_env2 []).2
      rfl rfl (by decide) ?_).1
    have hts : (tick_sample defaultConfig c1_env2 c1_normal_st).1 = 1000 * 1024 ^ 3 := by
      decide
    rw [hts]
    norm_num [defaultConfig]

/-- C6: the cycle reset triggers exactly when `now > cycle.end` or the
persisted cycle start differs from the computed one; on trigger the state is
replaced by a fresh record (NORMAL flags, rate and failure counters zeroed,
new cycle start) with the four notification timestamps and the tracked
interface set carried over; with no trigger the reset leaves the state
untouched. -/
theorem cycle_reset_trigger_and_frame (st : State) (c : Cycle) (now : ℤ) :
    (resetTrigger st c now ↔ (c.endTs < now ∨ st.cycle_start_ts ≠ c.startTs))
      ∧ (resetTrigger st c now →
          (reset_step st c now).is_limiting = false
            ∧ (reset_step st c now).is_blocked = false
            ∧ (reset_step st c now).last_rate_kbps = 0
            ∧ (reset_step st c now).vnstat_failures = 0
            ∧ (reset_step st c now).sysfs_failures = 0
            ∧ (reset_step st c now).cycle_start_ts = c.startTs
            ∧ (reset_step st c now).last_daily_report = st.last_daily_report
            ∧ (reset_step st c now).last_event_notif = st.last_event_notif
            ∧ (reset_step st c now).last_status_notif = st.last_status_notif
            ∧ (reset_step st c now).last_failure_notif = st.last_failure_notif
            ∧ (reset_step st c now).detected_interfaces = st.detected_interfaces)
      ∧ (¬ resetTrigger st c now → reset_step st c now = st) := by
  refine ⟨Iff.rfl, fun h => ?_, fun h => ?_⟩
  · rw [reset_step, if_pos h]
    exact ⟨rfl, rfl, rfl, rfl, rfl, rfl, rfl, rfl, rfl, rfl, rfl⟩
  · rw [reset_step, if_neg h]

/-- C6, witness: a state whose persisted cycle start differs from the fresh
cycle triggers the reset and the frame conditions hold. -/
theorem cycle_reset_trigger_and_frame_witness :
    resetTrigger { default_state with cycle_start_ts := 7, is_blocked := true } ⟨50, 100⟩ 60
      ∧ (reset_step { default_state with cycle_start_ts := 7, is_blocked := true }
            ⟨50, 100⟩ 60).is_blocked = false
      ∧ (reset_step { default_state with cycle_start_ts := 7, is_blocked := true }
            ⟨50, 100⟩ 60).cycle_start_ts = 50 := by
  have h := (cycle_reset_trigger_and_frame
    { default_state with cycle_start_ts := 7, is_blocked := true } ⟨50, 100⟩ 60).2.1
    (Or.inr (by decide))
  exact ⟨Or.inr (by decide), h.2.1, h.2.2.2.2.2.1⟩

/-- C7: the Cycle Reset Handler is idempotent: re-evaluating it for the
same rollover (same computed cycle, same instant) on its own output yields
the same state as evaluating it once. -/
theorem cycle_reset_idempotent (st : State) (c : Cycle) (now : ℤ) :
    reset_step (reset_step st c now) c now = reset_step st c now := by
  by_cases h : resetTrigger st c now
  · have h1 : reset_step st c now = fresh_state st c.startTs := by
      rw [reset_step, if_pos h]
    rw [h1, reset_step]
    by_cases h2 : resetTrigger (fresh_state st c.startTs) c now
    · rw [if_pos h2]
      rfl
    · rw [if_neg h2]
  · have hst : reset_step st c now = st := by rw [reset_step, if_neg h]
    rw [hst]
    exact hst

/-! ### Claim C9: blocked and limiting simultaneously -/

/-- Concrete run for C9: 905 GB used in tick one (crosses the 90 %
threshold), 999.5 GB used in tick two (crosses the hard limit). -/
def c9_st0 : State := { default_state with detected_interfaces := ["eth0"] }

def c9_env1 : TickEnv :=
  ⟨[], ⟨0, 432000⟩, 0, fun _ => ⟨true, some (905 * 1024 ^ 3), some 0⟩, fun _ => true, false⟩

def c9_env2 : TickEnv :=
  ⟨[], ⟨0, 432000⟩, 300, fun _ => ⟨true, some (1999 * 2 ^ 29), some 0⟩, fun _ => true, false⟩

def c9_rate : ℚ := target_rate_kbps defaultConfig 95 432000

def c9_st1 : State := { c9_st0 with is_limiting := true, last_rate_kbps := c9_rate }

/-- C9: the control state is two independent booleans; entering BLOCKED does
not clear `is_limiting`. In the concrete run above, the persisted state
after tick two has `is_blocked = true` and `is_limiting = true`
simultaneously, and the blocking tick emits only the block calls — the tc
rate limit applied while limiting (tick one) is left in place. -/
theorem blocked_and_limiting_both_reachable :
    ((tick defaultConfig c9_env2 (tick defaultConfig c9_env1 c9_st0).1).1.is_blocked = true
        ∧ (tick defaultConfig c9_env2 (tick defaultConfig c9_env1 c9_st0).1).1.is_limiting
            = true)
      ∧ (tick defaultConfig c9_env2 (tick defaultConfig c9_env1 c9_st0).1).2
          = [Action.block "eth0"]
      ∧ (tick defaultConfig c9_env1 c9_st0).2
          = [Action.update_tc_limit "eth0" c9_rate] := by
  have hs1a : (tick_sample defaultConfig c9_env1 c9_st0).1 = 905 * 1024 ^ 3 := by decide
  have hs1b : (tick_sample defaultConfig c9_env1 c9_st0).2 = c9_st0 := by rfl
  have hact1 : reset_actions c9_env1 (detect_step c9_env1 c9_st0) = [] := by rfl
  have hctl1 : control_step defaultConfig c9_env1.tc_initialized
      (time_remaining_sec c9_env1.cycle.endTs c9_env1.now) (905 * 1024 ^ 3) c9_st0
      = (c9_st1, [Action.update_tc_limit "eth0" c9_rate]) := by
    unfold control_step
    norm_num [c9_st0, c9_st1, c9_rate, c9_env1, default_state, defaultConfig,
      target_rate_kbps, target_rate_bps, safe_remaining_gb, time_remaining_sec]
  have h1 : tick defaultConfig c9_env1 c9_st0
      = (c9_st1, [Action.update_tc_limit "eth0" c9_rate]) := by
    unfold tick
    rw [hs1a, hs1b, hctl1, hact1]
    rfl
  have hs2a : (tick_sample defaultConfig c9_env2 c9_st1).1 = 1999 * 2 ^ 29 := by decide
  have hs2b : (tick_sample defaultConfig c9_env2 c9_st1).2 = c9_st1 := by rfl
  have hact2 : reset_actions c9_env2 (detect_step c9_env2 c9_st1) = [] := by rfl
  have hrem2 : defaultConfig.total_quota_gb - ((1999 * 2 ^ 29 : ℕ) : ℚ) / 1024 ^ 3
      ≤ defaultConfig.hard_limit_gb := by
    norm_num [defaultConfig]
  have hctl2 : control_step defaultConfig c9_env2.tc_initialized
      (time_remaining_sec c9_env2.cycle.endTs c9_env2.now) (1999 * 2 ^ 29) c9_st1
      = ({ c9_st1 with is_blocked := true }, [Action.block "eth0"]) := by
    have h := control_step_enter_block defaultConfig c9_env2.tc_initialized
      (time_remaining_sec c9_env2.cycle.endTs c9_env2.now) (1999 * 2 ^ 29) c9_st1 rfl hrem2
    rw [h]
    rfl
  have h2 : tick defaultConfig c9_env2 c9_st1
      = ({ c9_st1 with is_blocked := true }, [Action.block "eth0"]) := by
    unfold tick
    rw [hs2a, hs2b, hctl2, hact2]
    rfl
  rw [h1]
  rw [h2]
  exact ⟨⟨rfl, rfl⟩, rfl, rfl⟩

/-! ## Failure / backoff supervisor (lines 749-775) -/

inductive SupOutcome where
  | exit_process (code : ℕ)
  | sleep_then_continue (seconds : ℕ)
deriving DecidableEq

/-- Result of handling one error that escaped a tick. -/
structure FailureStepResult where
  consecutive_failures : ℕ
  periodic_notify_sent : Bool
  final_notify_sent : Bool
  outcome : SupOutcome
deriving DecidableEq

/-- Error branch of the supervisor (lines 757-775): increment the counter,
send a notification every third consecutive failure (when telegram is
enabled), and either exit with status 1 once the configured maximum is
reached (after a final notification attempt) or sleep for the capped
exponential backoff `min(600, 2 ** failures)`. -/
def failure_step (telegramEnabled : Bool) (maxFailures failures : ℕ) : FailureStepResult :=
  let f := failures + 1
  let periodic := (f % 3 == 0) && telegramEnabled
  if maxFailures ≤ f then
    { consecutive_failures := f
      periodic_notify_sent := periodic
      final_notify_sent := true
      outcome := SupOutcome.exit_process 1 }
  else
    { consecutive_failures := f
      periodic_notify_sent := periodic
      final_notify_sent := false
      outcome := SupOutcome.sleep_then_continue (min 600 (2 ^ f)) }

/-- Success branch (lines 748-752, and the blocked path of lines 697-700):
sleep the normal interval and reset the consecutive-failure counter. -/
def success_step : FailureStepResult :=
  { consecutive_failures := 0
    periodic_notify_sent := false
    final_notify_sent := false
    outcome := SupOutcome.sleep_then_continue UPDATE_INTERVAL_SEC }

/-- C8: every error escaping a tick increments the consecutive-failure
counter; a notification goes out exactly on every third consecutive failure
(with notifications enabled); reaching the configured maximum produces a
final notification and a process exit with non-zero status 1; otherwise the
supervisor sleeps `min(600, 2^failures)` seconds instead of the poll
interval; and a successful tick resets the counter to zero (after the
normal `UPDATE_INTERVAL_SEC` sleep). -/
theorem failure_supervisor_behavior (enabled : Bool) (maxF f : ℕ) :
    (failure_step enabled maxF f).consecutive_failures = f + 1
      ∧ ((failure_step enabled maxF f).periodic_notify_sent = true
          ↔ ((f + 1) % 3 = 0 ∧ enabled = true))
      ∧ (maxF ≤ f + 1 →
          (failure_step enabled maxF f).outcome = SupOutcome.exit_process 1
            ∧ (failure_step enabled maxF f).final_notify_sent = true ∧ (1 : ℕ) ≠ 0)
      ∧ (f + 1 < maxF →
          (failure_step enabled maxF f).outcome
              = SupOutcome.sleep_then_continue (min 600 (2 ^ (f + 1)))
            ∧ (failure_step enabled maxF f).final_notify_sent = false)
      ∧ success_step.consecutive_failures = 0
      ∧ success_step.outcome = SupOutcome.sleep_then_continue UPDATE_INTERVAL_SEC := by
  unfold failure_step success_step
  by_cases h : maxF ≤ f + 1
  · refine ⟨by rw [if_pos h], ?_, fun _ => ⟨by rw [if_pos h], by rw [if_pos h], by omega⟩,
      fun h2 => absurd h (by omega), rfl, rfl⟩
    rw [if_pos h]
    simp [Nat.beq_eq_true_eq]
  · refine ⟨by rw [if_neg h], ?_, fun h2 => absurd h2 h,
      fun _ => ⟨by rw [if_neg h], by rw [if_neg h]⟩, rfl, rfl⟩
    rw [if_neg h]
    simp [Nat.beq_eq_true_eq]

/-- C8, witness: third failure with notifications on, maximum 10. -/
theorem failure_supervisor_behavior_witness :
    ((3 : ℕ) % 3 = 0 ∧ true = true) ∧ (3 : ℕ) < 10
      ∧ (failure_step true 10 2).consecutive_failures = 3
      ∧ (failure_step true 10 2).periodic_notify_sent = true
      ∧ (failure_step true 10 2).outcome = SupOutcome.sleep_then_continue (min 600 (2 ^ 3))
      ∧ (failure_step true 10 9).outcome = SupOutcome.exit_process 1 :=
  ⟨⟨rfl, rfl⟩, by omega,
    (failure_supervisor_behavior true 10 2).1,
    (failure_supervisor_behavior true 10 2).2.1.mpr ⟨rfl, rfl⟩,
    ((failure_supervisor_behavior true 10 2).2.2.2.1 (by omega)).1,
    ((failure_supervisor_behavior true 10 9).2.2.1 (by omega)).1⟩

/-! ## Billing-cycle computation `get_cycle_timestamps` (lines 264-311)

Python's `datetime` (proleptic Gregorian, naive) is modelled by a civil
date record plus seconds-of-day; `timestamp()` becomes seconds since the
Unix epoch in UTC. `timedelta(days = 32)` is 32 applications of the
successor-day function; `datetime(y, m, d)` raising `ValueError` for a day
beyond the month's length is modelled by `clampToMonth`, matching the
script's `except ValueError` fallback to `calendar.monthrange`. -/

/-- Leap-year rule of `calendar.isleap`. -/
def isLeap (y : ℕ) : Prop := y % 4 = 0 ∧ (y % 100 ≠ 0 ∨ y % 400 = 0)

instance (y : ℕ) : Decidable (isLeap y) := by
  unfold isLeap; infer_instance

/-- Month length, `calendar.monthrange(y, m)[1]`. -/
def daysInMonth (y m : ℕ) : ℕ :=
  if m = 2 then (if isLeap y then 29 else 28)
  else if m = 4 ∨ m = 6 ∨ m = 9 ∨ m = 11 then 30 else 31

structure Date where
  year : ℕ
  month : ℕ
  day : ℕ
deriving DecidableEq

/-- Dates `datetime` accepts (month 1-12, day within the month). -/
def ValidDate (d : Date) : Prop :=
  1 ≤ d.month ∧ d.month ≤ 12 ∧ 1 ≤ d.day ∧ d.day ≤ daysInMonth d.year d.month

instance (d : Date) : Decidable (ValidDate d) := by
  unfold ValidDate; infer_instance

/-- Days contained in the years `0, 1, ..., y-1` of the proleptic Gregorian
calendar (closed form counting leap years below `y`). -/
def daysBeforeYear (y : ℕ) : ℕ :=
  365 * y + (y + 3) / 4 + (y + 399) / 400 - (y + 99) / 100

/-- Days contained in the months `1, ..., m-1` of year `y` (month 0 is a
padding value that contributes no days). -/
def daysBeforeMonth (y : ℕ) : ℕ → ℕ
  | 0 => 0
  | m + 1 => daysBeforeMonth y m + (if m = 0 then 0 else daysInMonth y m)

/-- Linear day index of a civil date. -/
def toDays (d : Date) : ℕ :=
  daysBeforeYear d.year + daysBeforeMonth d.year d.month + (d.day - 1)

/-- Day index of the Unix epoch 1970-01-01. -/
def epochDays : ℕ := toDays ⟨1970, 1, 1⟩

structure DateTime where
  date : Date
  sod : ℕ
deriving DecidableEq

/-- POSIX timestamp of a civil date-time, `int(dt.timestamp())` in UTC. -/
def DateTime.ts (t : DateTime) : ℤ :=
  ((toDays t.date : ℤ) - (epochDays : ℤ)) * 86400 + (t.sod : ℤ)

/-- Next civil day. -/
def succDate (x : Date) : Date :=
  if x.day < daysInMonth x.year x.month then ⟨x.year, x.month, x.day + 1⟩
  else if x.month < 12 then ⟨x.year, x.month + 1, 1⟩
  else ⟨x.year + 1, 1, 1⟩

/-- `start_date + timedelta(days = n)`. -/
def addDays (n : ℕ) (x : Date) : Date := succDate^[n] x

/-- `datetime(y, m, day)`, falling back to the month's last day on
`ValueError` exactly as lines 276-281, 290-295 and 299-304 do. -/
def clampToMonth (y m day : ℕ) : Date :=
  if day ≤ daysInMonth y m then ⟨y, m, day⟩ else ⟨y, m, daysInMonth y m⟩

/-- `start_day = max(1, min(31, CYCLE_START_DAY))` (line 271). -/
def clampStartDay (c : ℕ) : ℕ := max 1 (min 31 c)

/-- Start date of the current billing cycle (lines 274-295): this month's
anchor day when `now.day >= start_day`, otherwise the previous month's,
clamped into the month either way. -/
def cycleStartDate (sd : ℕ) (nowD : Date) : Date :=
  if sd ≤ nowD.day then clampToMonth nowD.year nowD.month sd
  else if nowD.month = 1 then clampToMonth (nowD.year - 1) 12 sd
  else clampToMonth nowD.year (nowD.month - 1) sd

/-- `next_start` (lines 298-304): 32 days past the start, then
`replace(day = start_day)` with the `ValueError` clamp. -/
def nextCycleStartDate (sd : ℕ) (startD : Date) : Date :=
  clampToMonth (addDays 32 startD).year (addDays 32 startD).month sd

/-- Embedding of `get_cycle_timestamps` (lines 264-311): the cycle start at
midnight of the computed start date, the end one second before the next
start. -/
def get_cycle_timestamps (startDayCfg : ℕ) (now : DateTime) : Cycle :=
  { startTs := (DateTime.mk (cycleStartDate (clampStartDay startDayCfg) now.date) 0).ts
    endTs := (DateTime.mk (nextCycleStartDate (clampStartDay startDayCfg)
        (cycleStartDate (clampStartDay startDayCfg) now.date)) 0).ts - 1 }

/-! ### Arithmetic of the day index -/

theorem daysInMonth_le (y m : ℕ) : daysInMonth y m ≤ 31 := by
  unfold daysInMonth; split_ifs <;> norm_num

theorem daysInMonth_ge (y m : ℕ) : 28 ≤ daysInMonth y m := by
  unfold daysInMonth; split_ifs <;> norm_num

set_option maxHeartbeats 1600000 in
theorem daysBeforeYear_succ (y : ℕ) :
    daysBeforeYear (y + 1) = daysBeforeYear y + (if isLeap y then 366 else 365) := by
  unfold daysBeforeYear isLeap
  split_ifs with h
  · omega
  · omega

theorem daysBeforeMonth_succ (y : ℕ) :
    ∀ m : ℕ, 1 ≤ m → daysBeforeMonth y (m + 1) = daysBeforeMonth y m + daysInMonth y m
  | k + 1, _ => by
    show daysBeforeMonth y (k + 1) + (if k + 1 = 0 then 0 else daysInMonth y (k + 1))
        = daysBeforeMonth y (k + 1) + daysInMonth y (k + 1)
    rw [if_neg (Nat.succ_ne_zero k)]

/-- Start-of-month day index. -/
def monthStart (y m : ℕ) : ℕ := daysBeforeYear y + daysBeforeMonth y m

theorem monthStart_succ_month (y m : ℕ) (h1 : 1 ≤ m) :
    monthStart y (m + 1) = monthStart y m + daysInMonth y m := by
  unfold monthStart
  rw [daysBeforeMonth_succ y m h1]
  omega

theorem daysBeforeMonth_twelve (y : ℕ) :
    daysBeforeMonth y 12 + daysInMonth y 12 = if isLeap y then 366 else 365 := by
  have e := daysBeforeMonth_succ y
  have h12 : daysBeforeMonth y 12 = daysBeforeMonth y 11 + daysInMonth y 11 :=
    e 11 (by norm_num)
  have h11 : daysBeforeMonth y 11 = daysBeforeMonth y 10 + daysInMonth y 10 :=
    e 10 (by norm_num)
  have h10 : daysBeforeMonth y 10 = daysBeforeMonth y 9 + daysInMonth y 9 :=
    e 9 (by norm_num)
  have h9 : daysBeforeMonth y 9 = daysBeforeMonth y 8 + daysInMonth y 8 :=
    e 8 (by norm_num)
  have h8 : daysBeforeMonth y 8 = daysBeforeMonth y 7 + daysInMonth y 7 :=
    e 7 (by norm_num)
  have h7 : daysBeforeMonth y 7 = daysBeforeMonth y 6 + daysInMonth y 6 :=
    e 6 (by norm_num)
  have h6 : daysBeforeMonth y 6 = daysBeforeMonth y 5 + daysInMonth y 5 :=
    e 5 (by norm_num)
  have h5 : daysBeforeMonth y 5 = daysBeforeMonth y 4 + daysInMonth y 4 :=
    e 4 (by norm_num)
  have h4 : daysBeforeMonth y 4 = daysBeforeMonth y 3 + daysInMonth y 3 :=
    e 3 (by norm_num)
  have h3 : daysBeforeMonth y 3 = daysBeforeMonth y 2 + daysInMonth y 2 :=
    e 2 (by norm_num)
  have h2 : daysBeforeMonth y 2 = daysBeforeMonth y 1 + daysInMonth y 1 :=
    e 1 (by norm_num)
  have h1 : daysBeforeMonth y 1 = 0 := rfl
  have d1 : daysInMonth y 1 = 31 := rfl
  have d2 : daysInMonth y 2 = if isLeap y then 29 else 28 := rfl
  have d3 : daysInMonth y 3 = 31 := rfl
  have d4 : daysInMonth y 4 = 30 := rfl
  have d5 : daysInMonth y 5 = 31 := rfl
  have d6 : daysInMonth y 6 = 30 := rfl
  have d7 : daysInMonth y 7 = 31 := rfl
  have d8 : daysInMonth y 8 = 31 := rfl
  have d9 : daysInMonth y 9 = 30 := rfl
  have d10 : daysInMonth y 10 = 31 := rfl
  have d11 : daysInMonth y 11 = 30 := rfl
  have d12 : daysInMonth y 12 = 31 := rfl
  rw [h12, h11, h10, h9, h8, h7, h6, h5, h4, h3, h2, h1, d1, d2, d3, d4, d5, d6, d7,
    d8, d9, d10, d11, d12]
  by_cases h : isLeap y
  · rw [if_pos h, if_pos h]
  · rw [if_neg h, if_neg h]

theorem monthStart_year_step (y : ℕ) :
    monthStart (y + 1) 1 = monthStart y 12 + daysInMonth y 12 := by
  unfold monthStart
  have h0 : daysBeforeMonth (y + 1) 1 = 0 := rfl
  rw [h0, daysBeforeYear_succ, ← daysBeforeMonth_twelve y]
  omega

/-- Start of the month with linear index `k` (month pair `(y, m)` has index
`12 * y + m - 1`). -/
def monthStartL (k : ℕ) : ℕ := monthStart (k / 12) (k % 12 + 1)

theorem monthStartL_of (y m : ℕ) (h1 : 1 ≤ m) (h2 : m ≤ 12) :
    monthStartL (12 * y + m - 1) = monthStart y m := by
  unfold monthStartL
  have hdiv : (12 * y + m - 1) / 12 = y := by omega
  have hmod : (12 * y + m - 1) % 12 = m - 1 := by omega
  rw [hdiv, hmod]
  have hm : m - 1 + 1 = m := by omega
  rw [hm]

theorem monthStartL_le_succ (k : ℕ) : monthStartL k ≤ monthStartL (k + 1) := by
  rcases Nat.lt_or_ge (k % 12) 11 with h | h
  · have hdiv : (k + 1) / 12 = k / 12 := by omega
    have hmod : (k + 1) % 12 = k % 12 + 1 := by omega
    unfold monthStartL
    rw [hdiv, hmod, monthStart_succ_month (k / 12) (k % 12 + 1) (by omega)]
    omega
  · have h11 : k % 12 = 11 := by omega
    have hdiv : (k + 1) / 12 = k / 12 + 1 := by omega
    have hmod : (k + 1) % 12 = 0 := by omega
    unfold monthStartL
    rw [hdiv, hmod, h11]
    rw [show (0 : ℕ) + 1 = 1 from rfl, show (11 : ℕ) + 1 = 12 from rfl,
      monthStart_year_step (k / 12)]
    omega

theorem monthStartL_mono : Monotone monthStartL :=
  monotone_nat_of_le_succ monthStartL_le_succ

theorem monthStartL_next (y m : ℕ) (h1 : 1 ≤ m) (h2 : m ≤ 12) :
    monthStartL (12 * y + m) = monthStart y m + daysInMonth y m := by
  rcases Nat.lt_or_ge m 12 with h | h
  · have e := monthStartL_of y (m + 1) (by omega) (by omega)
    rw [show 12 * y + (m + 1) - 1 = 12 * y + m from by omega] at e
    rw [e, monthStart_succ_month y m h1]
  · have hm : m = 12 := by omega
    subst hm
    have e := monthStartL_of (y + 1) 1 (by norm_num) (by norm_num)
    rw [show 12 * (y + 1) + 1 - 1 = 12 * y + 12 from by omega] at e
    rw [e, monthStart_year_step y]

theorem toDays_eq (d : Date) : toDays d = monthStart d.year d.month + (d.day - 1) := rfl

theorem toDays_mk (y m d : ℕ) : toDays ⟨y, m, d⟩ = monthStart y m + (d - 1) := rfl

theorem toDays_lt_next (a : Date) (hv : ValidDate a) :
    toDays a < monthStartL (12 * a.year + a.month) := by
  rw [monthStartL_next a.year a.month hv.1 hv.2.1, toDays_eq]
  have h1 := hv.2.2.1
  have h2 := hv.2.2.2
  omega

theorem toDays_le_monthEnd (a : Date) (hva : ValidDate a) (y m : ℕ) (h1 : 1 ≤ m)
    (h2 : m ≤ 12) (h : 12 * a.year + a.month ≤ 12 * y + m) :
    toDays a + 1 ≤ monthStart y m + daysInMonth y m := by
  have ha := toDays_lt_next a hva
  have hm := monthStartL_mono h
  rw [monthStartL_next y m h1 h2] at hm
  omega

theorem monthStart_le_toDays (a : Date) : monthStart a.year a.month ≤ toDays a := by
  rw [toDays_eq]; omega

/-- Strict monotonicity of the day index in the lexicographic civil order. -/
theorem toDays_lt_toDays (a b : Date) (hva : ValidDate a) (hvb : ValidDate b)
    (h : 12 * a.year + a.month < 12 * b.year + b.month
      ∨ (a.year = b.year ∧ a.month = b.month ∧ a.day < b.day)) :
    toDays a < toDays b := by
  rcases h with h | ⟨hy, hm, hd⟩
  · have h1 := toDays_lt_next a hva
    have h2 : monthStartL (12 * a.year + a.month) ≤ monthStartL (12 * b.year + b.month - 1) :=
      monthStartL_mono (by omega)
    have h3 := monthStartL_of b.year b.month hvb.1 hvb.2.1
    have h4 := monthStart_le_toDays b
    omega
  · rw [toDays_eq, toDays_eq, hy, hm]
    have := hva.2.2.1
    omega

/-- Reflection: a date strictly past the end of a month lies in a strictly
later month. -/
theorem monthLin_lt_of_past_monthEnd (s r : Date) (hvr : ValidDate r)
    (h1 : 1 ≤ s.month) (h2 : s.month ≤ 12)
    (h : monthStart s.year s.month + daysInMonth s.year s.month ≤ toDays r) :
    12 * s.year + s.month < 12 * r.year + r.month := by
  by_contra hle
  push_neg at hle
  have := toDays_le_monthEnd r hvr s.year s.month h1 h2 hle
  omega

/-! ### Successor-day and day-addition lemmas -/

theorem ValidDate_mk (y m d : ℕ) :
    ValidDate ⟨y, m, d⟩ ↔ (1 ≤ m ∧ m ≤ 12 ∧ 1 ≤ d ∧ d ≤ daysInMonth y m) := Iff.rfl

theorem succDate_valid (x : Date) (hv : ValidDate x) : ValidDate (succDate x) := by
  obtain ⟨hm1, hm2, hd1, hd2⟩ := hv
  unfold succDate
  split_ifs with h1 h2
  · rw [ValidDate_mk]
    exact ⟨hm1, hm2, by omega, by omega⟩
  · rw [ValidDate_mk]
    have := daysInMonth_ge x.year (x.month + 1)
    exact ⟨by omega, by omega, by omega, by omega⟩
  · rw [ValidDate_mk]
    have := daysInMonth_ge (x.year + 1) 1
    exact ⟨by omega, by omega, by omega, by omega⟩

theorem toDays_succDate (x : Date) (hv : ValidDate x) :
    toDays (succDate x) = toDays x + 1 := by
  obtain ⟨hm1, hm2, hd1, hd2⟩ := hv
  unfold succDate
  split_ifs with h1 h2
  · rw [toDays_mk, toDays_eq]
    omega
  · rw [toDays_mk, toDays_eq, monthStart_succ_month x.year x.month hm1]
    omega
  · have hm : x.month = 12 := by omega
    rw [toDays_mk, toDays_eq, hm]
    rw [monthStart_year_step x.year]
    rw [hm] at h1 hd2
    omega

theorem addDays_spec (n : ℕ) (x : Date) (hv : ValidDate x) :
    ValidDate (addDays n x) ∧ toDays (addDays n x) = toDays x + n := by
  induction n with
  | zero => exact ⟨hv, rfl⟩
  | succ k ih =>
    have h1 : addDays (k + 1) x = succDate (addDays k x) :=
      Function.iterate_succ_apply' succDate k x
    rw [h1]
    refine ⟨succDate_valid _ ih.1, ?_⟩
    rw [toDays_succDate _ ih.1, ih.2]
    omega

/-! ### Shape lemmas for the cycle computation -/

theorem clampToMonth_valid (y m day : ℕ) (hm1 : 1 ≤ m) (hm2 : m ≤ 12) (hd : 1 ≤ day) :
    ValidDate (clampToMonth y m day) := by
  unfold clampToMonth
  split_ifs with h
  · rw [ValidDate_mk]
    exact ⟨hm1, hm2, hd, h⟩
  · rw [ValidDate_mk]
    have := daysInMonth_ge y m
    exact ⟨hm1, hm2, by omega, le_rfl⟩

theorem clampToMonth_year (y m day : ℕ) : (clampToMonth y m day).year = y := by
  unfold clampToMonth; split_ifs <;> rfl

theorem clampToMonth_month (y m day : ℕ) : (clampToMonth y m day).month = m := by
  unfold clampToMonth; split_ifs <;> rfl

theorem cycleStartDate_this (sd : ℕ) (now : Date) (hv : ValidDate now) (hbr : sd ≤ now.day) :
    cycleStartDate sd now = ⟨now.year, now.month, sd⟩ := by
  unfold cycleStartDate
  rw [if_pos hbr]
  unfold clampToMonth
  rw [if_pos (le_trans hbr hv.2.2.2)]

theorem cycleStartDate_valid (sd : ℕ) (now : Date) (hv : ValidDate now)
    (hsd : 1 ≤ sd) : ValidDate (cycleStartDate sd now) := by
  unfold cycleStartDate
  split_ifs with h1 h2
  · exact clampToMonth_valid _ _ _ hv.1 hv.2.1 hsd
  · exact clampToMonth_valid _ _ _ (by norm_num) (by norm_num) hsd
  · have := hv.1
    exact clampToMonth_valid _ _ _ (by omega) (by have := hv.2.1; omega) hsd

/-- Helper: the cycle computed at a date that carries the (unclamped)
anchor day starts at that date itself. -/
theorem cycleStart_of_anchor (sd : ℕ) (R : Date) (hnc : sd ≤ daysInMonth R.year R.month) :
    cycleStartDate sd (clampToMonth R.year R.month sd) = clampToMonth R.year R.month sd := by
  have hform : clampToMonth R.year R.month sd = ⟨R.year, R.month, sd⟩ := by
    unfold clampToMonth
    rw [if_pos hnc]
  rw [hform]
  unfold cycleStartDate
  rw [if_pos (le_refl sd)]
  unfold clampToMonth
  rw [if_pos hnc]

/-- When the end-side `replace(day = start_day)` needs no clamping, the
cycle computed at the next start date starts exactly there. -/
theorem nextStart_self (sd : ℕ) (S : Date)
    (hnc : sd ≤ daysInMonth (addDays 32 S).year (addDays 32 S).month) :
    cycleStartDate sd (nextCycleStartDate sd S) = nextCycleStartDate sd S := by
  unfold nextCycleStartDate
  exact cycleStart_of_anchor sd (addDays 32 S) hnc

/-- Core window property: the computed start is not after `now`, and `now`
is strictly before the computed next start. -/
theorem cycle_dates_spec (sd : ℕ) (hsd1 : 1 ≤ sd) (hsd31 : sd ≤ 31)
    (now : Date) (hv : ValidDate now) (hy : 2 ≤ now.year) :
    toDays (cycleStartDate sd now) ≤ toDays now
      ∧ toDays now < toDays (nextCycleStartDate sd (cycleStartDate sd now)) := by
  set S := cycleStartDate sd now with hSdef
  have hvS : ValidDate S := cycleStartDate_valid sd now hv hsd1
  obtain ⟨hvR, hR⟩ := addDays_spec 32 S hvS
  obtain ⟨R, hRdef⟩ : ∃ R : Date, addDays 32 S = R := ⟨_, rfl⟩
  rw [hRdef] at hvR hR
  have hNdef : nextCycleStartDate sd S = clampToMonth R.year R.month sd := by
    unfold nextCycleStartDate
    rw [hRdef]
  have hvN : ValidDate (nextCycleStartDate sd S) := by
    rw [hNdef]
    exact clampToMonth_valid _ _ _ hvR.1 hvR.2.1 hsd1
  have hNy : (nextCycleStartDate sd S).year = R.year := by
    rw [hNdef, clampToMonth_year]
  have hNm : (nextCycleStartDate sd S).month = R.month := by
    rw [hNdef, clampToMonth_month]
  by_cases hbr : sd ≤ now.day
  · -- this-month branch (lines 274-281)
    have hSform : S = ⟨now.year, now.month, sd⟩ := by
      rw [hSdef]
      exact cycleStartDate_this sd now hv hbr
    constructor
    · rw [hSform, toDays_mk, toDays_eq]
      omega
    · have hpast : monthStart now.year now.month + daysInMonth now.year now.month
          ≤ toDays R := by
        rw [hR, hSform, toDays_mk]
        have := daysInMonth_le now.year now.month
        omega
      have hlt : 12 * now.year + now.month < 12 * R.year + R.month :=
        monthLin_lt_of_past_monthEnd now R hvR hv.1 hv.2.1 hpast
      apply toDays_lt_toDays now _ hv hvN
      left
      rw [hNy, hNm]
      exact hlt
  · push_neg at hbr
    by_cases hm1 : now.month = 1
    · -- previous month is December of the previous year (lines 283-288);
      -- December has 31 days, so the start is never clamped here
      have hd31 : daysInMonth (now.year - 1) 12 = 31 := rfl
      have hSform : S = ⟨now.year - 1, 12, sd⟩ := by
        rw [hSdef]
        unfold cycleStartDate
        rw [if_neg (by omega), if_pos hm1]
        unfold clampToMonth
        rw [if_pos (by rw [hd31]; exact hsd31)]
      constructor
      · have hlt : toDays S < toDays now := by
          apply toDays_lt_toDays S now hvS hv
          left
          rw [hSform]
          show 12 * (now.year - 1) + 12 < 12 * now.year + now.month
          omega
        omega
      · have hpast : monthStart (now.year - 1) 12 + daysInMonth (now.year - 1) 12
            ≤ toDays R := by
          rw [hR, hSform, toDays_mk, hd31]
          omega
        have hlt : 12 * (now.year - 1) + 12 < 12 * R.year + R.month :=
          monthLin_lt_of_past_monthEnd ⟨now.year - 1, 12, sd⟩ R
            hvR (by norm_num) (by norm_num) hpast
        rcases Nat.lt_or_ge (12 * now.year + now.month) (12 * R.year + R.month)
            with hlt2 | hge
        · apply toDays_lt_toDays now _ hv hvN
          left
          rw [hNy, hNm]
          exact hlt2
        · have hyy : R.year = now.year ∧ R.month = now.month := by
            have hb1 := hvR.1
            have hb2 := hvR.2.1
            have hc1 := hv.1
            have hc2 := hv.2.1
            constructor <;> omega
          have hdm : daysInMonth R.year R.month = 31 := by
            rw [hyy.1, hyy.2, hm1]
            rfl
          have hNform : nextCycleStartDate sd S = ⟨R.year, R.month, sd⟩ := by
            rw [hNdef]
            unfold clampToMonth
            rw [if_pos (by rw [hdm]; exact hsd31)]
          have hNd : (nextCycleStartDate sd S).day = sd := by
            rw [hNform]
          apply toDays_lt_toDays now _ hv hvN
          right
          refine ⟨?_, ?_, ?_⟩
          · rw [hNy]
            exact hyy.1.symm
          · rw [hNm]
            exact hyy.2.symm
          · rw [hNd]
            exact hbr
    · -- previous month inside the same year (lines 283-295)
      have hm2 : 2 ≤ now.month := by have := hv.1; omega
      have hSform : S = clampToMonth now.year (now.month - 1) sd := by
        rw [hSdef]
        unfold cycleStartDate
        rw [if_neg (by omega), if_neg hm1]
      have hstep : monthStart now.year now.month
          = monthStart now.year (now.month - 1) + daysInMonth now.year (now.month - 1) := by
        have h := monthStart_succ_month now.year (now.month - 1) (by omega)
        rw [show now.month - 1 + 1 = now.month from by omega] at h
        exact h
      have hSy : S.year = now.year := by rw [hSform, clampToMonth_year]
      have hSm : S.month = now.month - 1 := by rw [hSform, clampToMonth_month]
      have hSd : S.day = (if sd ≤ daysInMonth now.year (now.month - 1) then sd
          else daysInMonth now.year (now.month - 1)) := by
        rw [hSform]
        unfold clampToMonth
        split_ifs <;> rfl
      have hTS : toDays S = monthStart now.year (now.month - 1) + (S.day - 1) := by
        rw [toDays_eq, hSy, hSm]
      constructor
      · have hlt : toDays S < toDays now := by
          apply toDays_lt_toDays S now hvS hv
          left
          rw [hSy, hSm]
          omega
        omega
      · have hd1 : 1 ≤ S.day := hvS.2.2.1
        have hL : daysInMonth now.year (now.month - 1) ≤ 31 := daysInMonth_le _ _
        have hpast : monthStart now.year (now.month - 1) + daysInMonth now.year (now.month - 1)
            ≤ toDays R := by
          rw [hR, hTS]
          omega
        have hlt : 12 * now.year + (now.month - 1) < 12 * R.year + R.month :=
          monthLin_lt_of_past_monthEnd ⟨now.year, now.month - 1, 1⟩ R hvR
            (by show 1 ≤ now.month - 1; omega)
            (by show now.month - 1 ≤ 12; have := hv.2.1; omega) hpast
        rcases Nat.lt_or_ge (12 * now.year + now.month) (12 * R.year + R.month)
            with hlt2 | hge
        · apply toDays_lt_toDays now _ hv hvN
          left
          rw [hNy, hNm]
          exact hlt2
        · have hyy : R.year = now.year ∧ R.month = now.month := by
            have hb1 := hvR.1
            have hb2 := hvR.2.1
            have hc1 := hv.1
            have hc2 := hv.2.1
            constructor <;> omega
          by_cases hcl : sd ≤ daysInMonth R.year R.month
          · have hNform : nextCycleStartDate sd S = ⟨R.year, R.month, sd⟩ := by
              rw [hNdef]
              unfold clampToMonth
              rw [if_pos hcl]
            have hNd : (nextCycleStartDate sd S).day = sd := by
              rw [hNform]
            apply toDays_lt_toDays now _ hv hvN
            right
            refine ⟨?_, ?_, ?_⟩
            · rw [hNy]
              exact hyy.1.symm
            · rw [hNm]
              exact hyy.2.symm
            · rw [hNd]
              exact hbr
          · exfalso
            have hRd : toDays R = monthStart now.year now.month + (R.day - 1) := by
              rw [toDays_eq, hyy.1, hyy.2]
            have hrd2 : R.day ≤ daysInMonth R.year R.month := hvR.2.2.2
            rw [hyy.1, hyy.2] at hrd2 hcl
            have hrd1 : 1 ≤ R.day := hvR.2.2.1
            have hDm : 28 ≤ daysInMonth now.year now.month := daysInMonth_ge _ _
            rw [hRd, hTS, hstep] at hR
            by_cases hsdL : sd ≤ daysInMonth now.year (now.month - 1)
            · rw [if_pos hsdL] at hSd
              omega
            · rw [if_neg hsdL] at hSd
              omega

/-! ### Claim C3 -/

set_option maxRecDepth 100000 in
/-- C3 counterexample: with anchor day 31 at 2021-12-31, the cycle start is
2021-12-31 and `start + 32 days` lands on 2022-02-01, so the next-start
computation clamps to 2022-02-28; the cycle end is one second before
2022-02-28 00:00:00, but the cycle computed at that very instant starts at
2022-01-31 — `end + 1 second` is NOT the next cycle's start. -/
theorem cycle_contiguity_counterexample :
    (get_cycle_timestamps 31 ⟨⟨2021, 12, 31⟩, 0⟩).endTs + 1
        = (DateTime.mk ⟨2022, 2, 28⟩ 0).ts
      ∧ (get_cycle_timestamps 31 ⟨⟨2022, 2, 28⟩, 0⟩).startTs
          = (DateTime.mk ⟨2022, 1, 31⟩ 0).ts
      ∧ (get_cycle_timestamps 31 ⟨⟨2022, 2, 28⟩, 0⟩).startTs
          ≠ (get_cycle_timestamps 31 ⟨⟨2021, 12, 31⟩, 0⟩).endTs + 1 := by
  refine ⟨by decide, by decide, by decide⟩

/-- C3 amended: for every anchor configuration and valid instant (year at
least 2 — `datetime` raises below year 1), the computed cycle satisfies
`start <= now <= end`, and `end + 1` is the timestamp of the computed
next-start date; the cycle computed at that instant starts exactly at
`end + 1` PROVIDED the end-side `replace(day = start_day)` needed no
clamping (always the case for anchors up to 28); when it clamps — possible
only for anchor 31 — contiguity fails, as the counterexample shows. -/
theorem cycle_window_and_contiguity (cfgDay : ℕ) (now : DateTime)
    (hv : ValidDate now.date) (hy : 2 ≤ now.date.year) (hsod : now.sod < 86400) :
    (get_cycle_timestamps cfgDay now).startTs ≤ now.ts
      ∧ now.ts ≤ (get_cycle_timestamps cfgDay now).endTs
      ∧ (get_cycle_timestamps cfgDay now).endTs + 1
          = (DateTime.mk (nextCycleStartDate (clampStartDay cfgDay)
              (cycleStartDate (clampStartDay cfgDay) now.date)) 0).ts
      ∧ (clampStartDay cfgDay
            ≤ daysInMonth (addDays 32 (cycleStartDate (clampStartDay cfgDay) now.date)).year
              (addDays 32 (cycleStartDate (clampStartDay cfgDay) now.date)).month →
          (get_cycle_timestamps cfgDay
              (DateTime.mk (nextCycleStartDate (clampStartDay cfgDay)
                (cycleStartDate (clampStartDay cfgDay) now.date)) 0)).startTs
            = (get_cycle_timestamps cfgDay now).endTs + 1) := by
  have hsd1 : 1 ≤ clampStartDay cfgDay := le_max_left _ _
  have hsd31 : clampStartDay cfgDay ≤ 31 :=
    max_le (by norm_num) (min_le_left _ _)
  obtain ⟨hle, hlt⟩ := cycle_dates_spec (clampStartDay cfgDay) hsd1 hsd31 now.date hv hy
  have e1 : (get_cycle_timestamps cfgDay now).startTs
      = (DateTime.mk (cycleStartDate (clampStartDay cfgDay) now.date) 0).ts := rfl
  have e2 : (get_cycle_timestamps cfgDay now).endTs
      = (DateTime.mk (nextCycleStartDate (clampStartDay cfgDay)
          (cycleStartDate (clampStartDay cfgDay) now.date)) 0).ts - 1 := rfl
  have ts_mk : ∀ (d : Date) (sec : ℕ), (DateTime.mk d sec).ts
      = ((toDays d : ℤ) - (epochDays : ℤ)) * 86400 + (sec : ℤ) := fun _ _ => rfl
  refine ⟨?_, ?_, ?_, ?_⟩
  · rw [e1, ts_mk, ts_mk]
    omega
  · rw [e2, ts_mk, ts_mk]
    omega
  · rw [e2]
    omega
  · intro hnc
    have hself := nextStart_self (clampStartDay cfgDay)
      (cycleStartDate (clampStartDay cfgDay) now.date) hnc
    have e3 : (get_cycle_timestamps cfgDay
        (DateTime.mk (nextCycleStartDate (clampStartDay cfgDay)
          (cycleStartDate (clampStartDay cfgDay) now.date)) 0)).startTs
        = (DateTime.mk (cycleStartDate (clampStartDay cfgDay)
            (nextCycleStartDate (clampStartDay cfgDay)
              (cycleStartDate (clampStartDay cfgDay) now.date))) 0).ts := rfl
    rw [e3, hself, e2]
    omega

/-- C3 amended, witness: anchor day 1 at 2021-05-15 12:00 UTC. -/
theorem cycle_window_and_contiguity_witness :
    (ValidDate ⟨2021, 5, 15⟩ ∧ 2 ≤ (2021 : ℕ) ∧ (43200 : ℕ) < 86400)
      ∧ (get_cycle_timestamps 1 ⟨⟨2021, 5, 15⟩, 43200⟩).startTs
          ≤ (DateTime.mk ⟨2021, 5, 15⟩ 43200).ts
      ∧ (DateTime.mk ⟨2021, 5, 15⟩ 43200).ts
          ≤ (get_cycle_timestamps 1 ⟨⟨2021, 5, 15⟩, 43200⟩).endTs :=
  ⟨⟨by decide, by decide, by decide⟩,
    (cycle_window_and_contiguity 1 ⟨⟨2021, 5, 15⟩, 43200⟩
      (by decide) (by decide) (by decide)).1,
    (cycle_window_and_contiguity 1 ⟨⟨2021, 5, 15⟩, 43200⟩
      (by decide) (by decide) (by decide)).2.1⟩

end TrafficControl
